import Mathlib

/-!
Shallow embedding of the core decision logic of a two-venue prediction-market
arbitrage bot (venue A = Polymarket, venue B = Kalshi).

Prices are embedded as rationals (`ℚ`); the source's JavaScript numbers are
used only for small decimal quantities in the 0–100 price scale.  Optional
fields (`bettedPrice`, `series_ticker`, `resolvedPrice`) are embedded as
`Option`.  Asynchronous venue calls are embedded by passing their settled
outcomes (`Except Unit _` — `.error` models a rejected promise) as explicit
parameters, and by recording the calls a routine issues in a `List VenueCall`
trace.
-/

namespace ArbBot

/-- Per-venue price snapshot (`MarketPrice` in `types/market`).
`bettedPrice` is the optional settlement-implied price. -/
structure MarketPrice where
  upPrice : ℚ
  downPrice : ℚ
  bettedPrice : Option ℚ
deriving Repr, DecidableEq

/-- A matched market pair as consumed by the detector (`MarketData`). -/
structure MarketData where
  marketId : String
  marketTitle : String
  endTime : Int
  isResolved : Bool
  resolvedPrice : Option ℚ
  polymarket : MarketPrice
  kalshi : MarketPrice
deriving Repr, DecidableEq

/-- The trading action returned by `ArbitrageDetector.determineAction`. -/
inductive Action where
  | buy_poly_up_kalshi_down
  | buy_poly_down_kalshi_up
  | skip
deriving Repr, DecidableEq

/-- The `opportunityType` discriminator on an `ArbitrageOpportunity`. -/
inductive OpportunityType where
  | both
  | poly_up_kalshi_down
  | poly_down_kalshi_up
deriving Repr, DecidableEq

/-- Record `ArbitrageOpportunity` (the `timestamp` field is not modelled). -/
structure ArbitrageOpportunity where
  marketId : String
  marketTitle : String
  opportunityType : OpportunityType
  polyUpPrice : ℚ
  polyDownPrice : ℚ
  kalshiUpPrice : ℚ
  kalshiDownPrice : ℚ
  totalCost : ℚ
  profitPotential : ℚ
  polyBettedPrice : Option ℚ
  kalshiBettedPrice : Option ℚ
  action : Action
deriving Repr, DecidableEq

/-- Source `ArbitrageDetector.determineAction`: the decision tree choosing a trading
action from eligibility flags and the two venues' price snapshots.  A `some`/
`some` match on the betted prices embeds the source's
`polyBetted !== undefined && kalshiBetted !== undefined` check. -/
def determineAction (hasBoth hasPolyUpKalshiDown hasPolyDownKalshiUp : Prop)
    [Decidable hasBoth] [Decidable hasPolyUpKalshiDown]
    [Decidable hasPolyDownKalshiUp] (poly kalshi : MarketPrice) : Action :=
  if hasBoth then
    match poly.bettedPrice, kalshi.bettedPrice with
    | some polyBetted, some kalshiBetted =>
      if kalshiBetted > polyBetted then .buy_poly_up_kalshi_down
      else if kalshiBetted < polyBetted then .buy_poly_down_kalshi_up
      else
        if poly.upPrice + kalshi.downPrice < poly.downPrice + kalshi.upPrice then
          .buy_poly_up_kalshi_down
        else .buy_poly_down_kalshi_up
    | _, _ =>
      if poly.upPrice + kalshi.downPrice < poly.downPrice + kalshi.upPrice then
        .buy_poly_up_kalshi_down
      else .buy_poly_down_kalshi_up
  else if hasPolyUpKalshiDown then
    match poly.bettedPrice, kalshi.bettedPrice with
    | some polyBetted, some kalshiBetted =>
      if polyBetted < kalshiBetted then .buy_poly_up_kalshi_down else .skip
    | _, _ => .skip
  else if hasPolyDownKalshiUp then
    match poly.bettedPrice, kalshi.bettedPrice with
    | some polyBetted, some kalshiBetted =>
      if polyBetted > kalshiBetted then .buy_poly_down_kalshi_up else .skip
    | _, _ => .skip
  else .skip

/-- The profit formula of `detectOpportunity`:
`profitPotential = ((100 - totalCost) / totalCost) * 100`. -/
def profitPotentialOf (totalCost : ℚ) : ℚ :=
  ((100 - totalCost) / totalCost) * 100

/-- Source `ArbitrageDetector.detectOpportunity` with profit threshold
`PROFIT_THRESHOLD = T` (constructor default 90). -/
def detectOpportunity (T : ℚ) (marketData : MarketData) :
    Option ArbitrageOpportunity :=
  let polymarket := marketData.polymarket
  let kalshi := marketData.kalshi
  let polyUpKalshiDown := polymarket.upPrice + kalshi.downPrice
  let polyDownKalshiUp := polymarket.downPrice + kalshi.upPrice
  if ¬ polyUpKalshiDown < T ∧ ¬ polyDownKalshiUp < T then none
  else
    let action := determineAction
      (polyUpKalshiDown < T ∧ polyDownKalshiUp < T)
      (polyUpKalshiDown < T) (polyDownKalshiUp < T) polymarket kalshi
    if action = .skip then none
    else
      let totalCost :=
        if polyUpKalshiDown < T ∧ polyDownKalshiUp < T then
          min polyUpKalshiDown polyDownKalshiUp
        else if polyUpKalshiDown < T then polyUpKalshiDown
        else polyDownKalshiUp
      let profitPotential := profitPotentialOf totalCost
      let opportunityType :=
        if polyUpKalshiDown < T ∧ polyDownKalshiUp < T then OpportunityType.both
        else if polyUpKalshiDown < T then OpportunityType.poly_up_kalshi_down
        else OpportunityType.poly_down_kalshi_up
      some
        { marketId := marketData.marketId
          marketTitle := marketData.marketTitle
          opportunityType := opportunityType
          polyUpPrice := polymarket.upPrice
          polyDownPrice := polymarket.downPrice
          kalshiUpPrice := kalshi.upPrice
          kalshiDownPrice := kalshi.downPrice
          totalCost := totalCost
          profitPotential := profitPotential
          polyBettedPrice := polymarket.bettedPrice
          kalshiBettedPrice := kalshi.bettedPrice
          action := action }

section SpecScenarios

/-- Spec scenario: A = (40,63), B = (45,48), settlement (38,42): only
up/down eligible, 38 < 42, trade A-up/B-down. -/
example :
    (detectOpportunity 90
      { marketId := "m", marketTitle := "t", endTime := 0, isResolved := false
        resolvedPrice := none
        polymarket := { upPrice := 40, downPrice := 63, bettedPrice := some 38 }
        kalshi := { upPrice := 45, downPrice := 48, bettedPrice := some 42 } }).map
      (·.action) = some .buy_poly_up_kalshi_down := by
  norm_num [detectOpportunity, determineAction]
  exact ⟨_, ⟨by simp, rfl⟩, rfl⟩

/-- Spec scenario: same quotes, no settlement data: SKIP (detector yields none). -/
example :
    detectOpportunity 90
      { marketId := "m", marketTitle := "t", endTime := 0, isResolved := false
        resolvedPrice := none
        polymarket := { upPrice := 40, downPrice := 63, bettedPrice := none }
        kalshi := { upPrice := 45, downPrice := 48, bettedPrice := none } } = none := by
  norm_num [detectOpportunity, determineAction]

/-- Spec scenario: both eligible (85 and 87), no settlement data: lower cost wins. -/
example :
    (detectOpportunity 90
      { marketId := "m", marketTitle := "t", endTime := 0, isResolved := false
        resolvedPrice := none
        polymarket := { upPrice := 40, downPrice := 42, bettedPrice := none }
        kalshi := { upPrice := 45, downPrice := 45, bettedPrice := none } }).map
      (·.action) = some .buy_poly_up_kalshi_down := by
  norm_num [detectOpportunity, determineAction]
  exact ⟨_, ⟨by simp, rfl⟩, rfl⟩

end SpecScenarios

/-- C3: when both combination costs are at or above the threshold
(`venueA.upPrice + venueB.downPrice ≥ T` and
`venueA.downPrice + venueB.upPrice ≥ T`), `detectOpportunity` returns no
opportunity, regardless of settlement prices. -/
theorem detectOpportunity_none_of_ineligible (T : ℚ) (md : MarketData)
    (h1 : T ≤ md.polymarket.upPrice + md.kalshi.downPrice)
    (h2 : T ≤ md.polymarket.downPrice + md.kalshi.upPrice) :
    detectOpportunity T md = none := by
  simp only [detectOpportunity]
  rw [if_pos ⟨not_lt.mpr h1, not_lt.mpr h2⟩]

/-- Witness for `detectOpportunity_none_of_ineligible` at concrete
ineligible quotes (50+50 = 100 ≥ 90 on both combinations). -/
theorem detectOpportunity_none_of_ineligible_witness :
    detectOpportunity 90
      { marketId := "m", marketTitle := "t", endTime := 0, isResolved := false
        resolvedPrice := none
        polymarket := { upPrice := 50, downPrice := 50, bettedPrice := some 10 }
        kalshi := { upPrice := 50, downPrice := 50, bettedPrice := some 80 } } = none :=
  detectOpportunity_none_of_ineligible 90 _ (by norm_num) (by norm_num)

/-- C10: every returned opportunity carries
`profitPotential = (100 - totalCost) / totalCost * 100`, with `totalCost`
the minimum of the two combination costs when both are eligible (and the
single eligible combination cost otherwise); and for a fixed par of 100 the
profit formula is strictly decreasing in a positive total cost. -/
theorem detectOpportunity_profitPotential :
    (∀ (T : ℚ) (md : MarketData) (opp : ArbitrageOpportunity),
      detectOpportunity T md = some opp →
        opp.profitPotential = (100 - opp.totalCost) / opp.totalCost * 100 ∧
        (md.polymarket.upPrice + md.kalshi.downPrice < T →
          md.polymarket.downPrice + md.kalshi.upPrice < T →
          opp.totalCost = min (md.polymarket.upPrice + md.kalshi.downPrice)
            (md.polymarket.downPrice + md.kalshi.upPrice)) ∧
        (md.polymarket.upPrice + md.kalshi.downPrice < T →
          ¬ md.polymarket.downPrice + md.kalshi.upPrice < T →
          opp.totalCost = md.polymarket.upPrice + md.kalshi.downPrice) ∧
        (¬ md.polymarket.upPrice + md.kalshi.downPrice < T →
          opp.totalCost = md.polymarket.downPrice + md.kalshi.upPrice)) ∧
    (∀ a b : ℚ, 0 < a → a < b → profitPotentialOf b < profitPotentialOf a) := by
  constructor
  · intro T md opp h
    simp only [detectOpportunity] at h
    split at h
    · exact absurd h (by simp)
    · split at h
      · exact absurd h (by simp)
      · injection h with h
        subst h
        refine ⟨rfl, ?_, ?_, ?_⟩
        · intro h1 h2
          simp only
          rw [if_pos ⟨h1, h2⟩]
        · intro h1 h2
          simp only
          rw [if_neg (fun hc => h2 hc.2), if_pos h1]
        · intro h1
          simp only
          rw [if_neg (fun hc => h1 hc.1), if_neg h1]
  · intro a b ha hab
    have hb : 0 < b := ha.trans hab
    unfold profitPotentialOf
    rw [div_mul_eq_mul_div, div_mul_eq_mul_div, div_lt_div_iff₀ hb ha]
    nlinarith

/-- Witness for `detectOpportunity_profitPotential`: the spec scenario with
both combinations eligible (85 and 87) yields `totalCost = 85` and
`profitPotential = (100 - 85) / 85 * 100`; and the profit formula decreases
from cost 85 to cost 87. -/
theorem detectOpportunity_profitPotential_witness :
    (∀ opp : ArbitrageOpportunity,
      detectOpportunity 90
        { marketId := "m", marketTitle := "t", endTime := 0, isResolved := false
          resolvedPrice := none
          polymarket := { upPrice := 40, downPrice := 42, bettedPrice := none }
          kalshi := { upPrice := 45, downPrice := 45, bettedPrice := none } } = some opp →
        opp.profitPotential = (100 - opp.totalCost) / opp.totalCost * 100 ∧
        opp.totalCost = min (40 + 45 : ℚ) (42 + 45)) ∧
    profitPotentialOf 87 < profitPotentialOf 85 := by
  constructor
  · intro opp h
    obtain ⟨hf, hmin, -, -⟩ := detectOpportunity_profitPotential.1 90 _ opp h
    exact ⟨hf, hmin (by norm_num) (by norm_num)⟩
  · exact detectOpportunity_profitPotential.2 85 87 (by norm_num) (by norm_num)

/-- Helper: with both combinations eligible, `determineAction` never skips. -/
theorem determineAction_ne_skip_of_hasBoth
    {hasBoth hasPolyUpKalshiDown hasPolyDownKalshiUp : Prop}
    [Decidable hasBoth] [Decidable hasPolyUpKalshiDown]
    [Decidable hasPolyDownKalshiUp] {poly kalshi : MarketPrice} (h : hasBoth) :
    determineAction hasBoth hasPolyUpKalshiDown hasPolyDownKalshiUp
      poly kalshi ≠ .skip := by
  unfold determineAction
  rw [if_pos h]
  rcases poly.bettedPrice with _ | pb <;> rcases kalshi.bettedPrice with _ | kb <;>
    dsimp only <;> split_ifs <;> simp

/-- C1: with both combinations eligible the detector always returns an
opportunity, whose action follows the settlement (betted) price
disagreement when both are present, and falls back to the strictly cheaper
combination when a settlement price is missing or they are equal. -/
theorem detectOpportunity_both_eligible (T : ℚ) (md : MarketData)
    (h1 : md.polymarket.upPrice + md.kalshi.downPrice < T)
    (h2 : md.polymarket.downPrice + md.kalshi.upPrice < T) :
    ∃ opp, detectOpportunity T md = some opp ∧
      (∀ pb kb, md.polymarket.bettedPrice = some pb →
        md.kalshi.bettedPrice = some kb →
        (pb < kb → opp.action = .buy_poly_up_kalshi_down) ∧
        (kb < pb → opp.action = .buy_poly_down_kalshi_up)) ∧
      ((md.polymarket.bettedPrice = none ∨ md.kalshi.bettedPrice = none ∨
          md.polymarket.bettedPrice = md.kalshi.bettedPrice) →
        (md.polymarket.upPrice + md.kalshi.downPrice <
            md.polymarket.downPrice + md.kalshi.upPrice →
          opp.action = .buy_poly_up_kalshi_down) ∧
        (md.polymarket.downPrice + md.kalshi.upPrice <
            md.polymarket.upPrice + md.kalshi.downPrice →
          opp.action = .buy_poly_down_kalshi_up)) := by
  simp only [detectOpportunity]
  rw [if_neg (fun hc => hc.1 h1),
    if_neg (determineAction_ne_skip_of_hasBoth ⟨h1, h2⟩)]
  refine ⟨_, rfl, ?_, ?_⟩
  · intro pb kb hpb hkb
    constructor
    · intro hlt
      show determineAction _ _ _ _ _ = _
      unfold determineAction
      rw [if_pos ⟨h1, h2⟩, hpb, hkb]
      dsimp only
      rw [if_pos hlt]
    · intro hlt
      show determineAction _ _ _ _ _ = _
      unfold determineAction
      rw [if_pos ⟨h1, h2⟩, hpb, hkb]
      dsimp only
      rw [if_neg (lt_asymm hlt), if_pos hlt]
  · intro hcase
    constructor
    · intro hcost
      show determineAction _ _ _ _ _ = _
      unfold determineAction
      rw [if_pos ⟨h1, h2⟩]
      rcases hcase with hp | hk | he
      · rw [hp]
        dsimp only
        rw [if_pos hcost]
      · rw [hk]
        rcases md.polymarket.bettedPrice with _ | pb <;> dsimp only <;>
          rw [if_pos hcost]
      · rcases hp : md.polymarket.bettedPrice with _ | pb
        · dsimp only
          rw [if_pos hcost]
        · rw [hp] at he
          rw [← he]
          dsimp only
          rw [if_neg (lt_irrefl pb), if_neg (lt_irrefl pb), if_pos hcost]
    · intro hcost
      show determineAction _ _ _ _ _ = _
      unfold determineAction
      rw [if_pos ⟨h1, h2⟩]
      rcases hcase with hp | hk | he
      · rw [hp]
        dsimp only
        rw [if_neg (lt_asymm hcost)]
      · rw [hk]
        rcases md.polymarket.bettedPrice with _ | pb <;> dsimp only <;>
          rw [if_neg (lt_asymm hcost)]
      · rcases hp : md.polymarket.bettedPrice with _ | pb
        · dsimp only
          rw [if_neg (lt_asymm hcost)]
        · rw [hp] at he
          rw [← he]
          dsimp only
          rw [if_neg (lt_irrefl pb), if_neg (lt_irrefl pb),
            if_neg (lt_asymm hcost)]

/-- Witness for `detectOpportunity_both_eligible`: both combinations
eligible at threshold 90 with settlement prices 30 < 50, so the detector
returns the buy-A-up/B-down action. -/
theorem detectOpportunity_both_eligible_witness :
    ∃ opp, detectOpportunity 90
      { marketId := "m", marketTitle := "t", endTime := 0, isResolved := false
        resolvedPrice := none
        polymarket := { upPrice := 40, downPrice := 42, bettedPrice := some 30 }
        kalshi := { upPrice := 45, downPrice := 45, bettedPrice := some 50 } } = some opp ∧
      opp.action = .buy_poly_up_kalshi_down := by
  obtain ⟨opp, hdet, hsome, -⟩ :=
    detectOpportunity_both_eligible 90
      { marketId := "m", marketTitle := "t", endTime := 0, isResolved := false
        resolvedPrice := none
        polymarket := { upPrice := 40, downPrice := 42, bettedPrice := some 30 }
        kalshi := { upPrice := 45, downPrice := 45, bettedPrice := some 50 } }
      (by norm_num) (by norm_num)
  exact ⟨opp, hdet, (hsome 30 50 rfl rfl).1 (by norm_num)⟩

/-- C2: with exactly one combination eligible the detector trades only when
both settlement (betted) prices are present and disagree in the required
strict direction (venue A lower for A-up/B-down; venue A higher for
A-down/B-up); in every other single-eligibility case it returns no
opportunity. -/
theorem detectOpportunity_single_eligible (T : ℚ) (md : MarketData) :
    (md.polymarket.upPrice + md.kalshi.downPrice < T →
      ¬ md.polymarket.downPrice + md.kalshi.upPrice < T →
      ((∀ pb kb, md.polymarket.bettedPrice = some pb →
          md.kalshi.bettedPrice = some kb → pb < kb →
          ∃ opp, detectOpportunity T md = some opp ∧
            opp.action = .buy_poly_up_kalshi_down) ∧
        (¬ (∃ pb kb, md.polymarket.bettedPrice = some pb ∧
            md.kalshi.bettedPrice = some kb ∧ pb < kb) →
          detectOpportunity T md = none))) ∧
    (¬ md.polymarket.upPrice + md.kalshi.downPrice < T →
      md.polymarket.downPrice + md.kalshi.upPrice < T →
      ((∀ pb kb, md.polymarket.bettedPrice = some pb →
          md.kalshi.bettedPrice = some kb → kb < pb →
          ∃ opp, detectOpportunity T md = some opp ∧
            opp.action = .buy_poly_down_kalshi_up) ∧
        (¬ (∃ pb kb, md.polymarket.bettedPrice = some pb ∧
            md.kalshi.bettedPrice = some kb ∧ kb < pb) →
          detectOpportunity T md = none))) := by
  constructor
  · intro h1 h2
    constructor
    · intro pb kb hpb hkb hlt
      have hact : determineAction
          (md.polymarket.upPrice + md.kalshi.downPrice < T ∧
            md.polymarket.downPrice + md.kalshi.upPrice < T)
          (md.polymarket.upPrice + md.kalshi.downPrice < T)
          (md.polymarket.downPrice + md.kalshi.upPrice < T)
          md.polymarket md.kalshi = .buy_poly_up_kalshi_down := by
        unfold determineAction
        rw [if_neg (fun hb => h2 hb.2), if_pos h1, hpb, hkb]
        dsimp only
        rw [if_pos hlt]
      simp only [detectOpportunity]
      rw [if_neg (fun hc => hc.1 h1), hact]
      exact ⟨_, by rw [if_neg (by simp)], rfl⟩
    · intro hne
      push_neg at hne
      have hact : determineAction
          (md.polymarket.upPrice + md.kalshi.downPrice < T ∧
            md.polymarket.downPrice + md.kalshi.upPrice < T)
          (md.polymarket.upPrice + md.kalshi.downPrice < T)
          (md.polymarket.downPrice + md.kalshi.upPrice < T)
          md.polymarket md.kalshi = .skip := by
        unfold determineAction
        rw [if_neg (fun hb => h2 hb.2), if_pos h1]
        rcases hp : md.polymarket.bettedPrice with _ | pb
        · dsimp only
        · rcases hk : md.kalshi.bettedPrice with _ | kb
          · dsimp only
          · dsimp only
            rw [if_neg (not_lt.mpr (hne pb kb hp hk))]
      simp only [detectOpportunity]
      rw [if_neg (fun hc => hc.1 h1), hact, if_pos rfl]
  · intro h1 h2
    constructor
    · intro pb kb hpb hkb hlt
      have hact : determineAction
          (md.polymarket.upPrice + md.kalshi.downPrice < T ∧
            md.polymarket.downPrice + md.kalshi.upPrice < T)
          (md.polymarket.upPrice + md.kalshi.downPrice < T)
          (md.polymarket.downPrice + md.kalshi.upPrice < T)
          md.polymarket md.kalshi = .buy_poly_down_kalshi_up := by
        unfold determineAction
        rw [if_neg (fun hb => h1 hb.1), if_neg h1, if_pos h2, hpb, hkb]
        dsimp only
        rw [if_pos hlt]
      simp only [detectOpportunity]
      rw [if_neg (fun hc => hc.2 h2), hact]
      exact ⟨_, by rw [if_neg (by simp)], rfl⟩
    · intro hne
      push_neg at hne
      have hact : determineAction
          (md.polymarket.upPrice + md.kalshi.downPrice < T ∧
            md.polymarket.downPrice + md.kalshi.upPrice < T)
          (md.polymarket.upPrice + md.kalshi.downPrice < T)
          (md.polymarket.downPrice + md.kalshi.upPrice < T)
          md.polymarket md.kalshi = .skip := by
        unfold determineAction
        rw [if_neg (fun hb => h1 hb.1), if_neg h1, if_pos h2]
        rcases hp : md.polymarket.bettedPrice with _ | pb
        · dsimp only
        · rcases hk : md.kalshi.bettedPrice with _ | kb
          · dsimp only
          · dsimp only
            rw [if_neg (not_lt.mpr (hne pb kb hp hk))]
      simp only [detectOpportunity]
      rw [if_neg (fun hc => hc.2 h2), hact, if_pos rfl]

/-- Witness for `detectOpportunity_single_eligible`: the spec scenario
A = (40, 63), B = (45, 48) at threshold 90 is only A-up/B-down eligible;
with settlement prices 38 < 42 the detector trades that combination, and
with no settlement data it returns no opportunity. -/
theorem detectOpportunity_single_eligible_witness :
    (∃ opp, detectOpportunity 90
      { marketId := "m", marketTitle := "t", endTime := 0, isResolved := false
        resolvedPrice := none
        polymarket := { upPrice := 40, downPrice := 63, bettedPrice := some 38 }
        kalshi := { upPrice := 45, downPrice := 48, bettedPrice := some 42 } } = some opp ∧
      opp.action = .buy_poly_up_kalshi_down) ∧
    detectOpportunity 90
      { marketId := "m", marketTitle := "t", endTime := 0, isResolved := false
        resolvedPrice := none
        polymarket := { upPrice := 40, downPrice := 63, bettedPrice := none }
        kalshi := { upPrice := 45, downPrice := 48, bettedPrice := none } } = none := by
  constructor
  · exact ((detectOpportunity_single_eligible 90 _).1 (by norm_num)
      (by norm_num)).1 38 42 rfl rfl (by norm_num)
  · refine ((detectOpportunity_single_eligible 90 _).1 (by norm_num)
      (by norm_num)).2 ?_
    rintro ⟨pb, kb, hpb, -, -⟩
    exact Option.noConfusion hpb

/-- A filled order as fulfilled by a venue `buyToken` call (opaque here). -/
structure Trade where
  orderId : String
deriving Repr, DecidableEq

/-- The two venues. -/
inductive Venue where
  | polymarket
  | kalshi
deriving Repr, DecidableEq

/-- An observable venue API call; routines below record the calls they issue
as a trace. The source never issues a `cancel`, but the constructor exists so
that its absence from a trace can be stated. -/
inductive VenueCall where
  | buy (venue : Venue) (marketId : String) (side : String) (amount price : ℚ)
  | cancel (venue : Venue) (marketId : String)
  | checkResolved (venue : Venue) (marketId : String)
  | redeem (venue : Venue) (marketId : String) (side : String)
deriving Repr, DecidableEq

/-- Position lifecycle status. -/
inductive PositionStatus where
  | active
  | redeemed
  | expired
deriving Repr, DecidableEq

/-- Record `Position` from `types/market`. -/
structure Position where
  marketId : String
  polyUp : ℚ
  polyDown : ℚ
  kalshiUp : ℚ
  kalshiDown : ℚ
  totalCost : ℚ
  expectedProfit : ℚ
  status : PositionStatus
deriving Repr, DecidableEq

/-- The position record built by `Trader.executeArbitrage` on dual success. -/
def mkPosition (opportunity : ArbitrageOpportunity) (amount : ℚ) : Position :=
  { marketId := opportunity.marketId
    polyUp := if opportunity.action = .buy_poly_up_kalshi_down then amount else 0
    polyDown := if opportunity.action = .buy_poly_down_kalshi_up then amount else 0
    kalshiUp := if opportunity.action = .buy_poly_down_kalshi_up then amount else 0
    kalshiDown := if opportunity.action = .buy_poly_up_kalshi_down then amount else 0
    totalCost := opportunity.totalCost * amount / 100
    expectedProfit := opportunity.profitPotential * amount / 100
    status := .active }

/-- Source `Trader.executeArbitrage`.  The settled outcomes of the two concurrent
`buyToken` calls (`Promise.allSettled`) are passed as `polyResult` and
`kalshiResult` (`.error` models a rejected promise).  Returns the optional
created position together with the trace of venue calls issued; the function
is total, so no code path raises an exception. -/
def executeArbitrage (minTradeAmount maxTradeAmount : ℚ)
    (polyResult kalshiResult : Except Unit Trade)
    (opportunity : ArbitrageOpportunity) (amount : ℚ) :
    Option Position × List VenueCall :=
  if amount < minTradeAmount ∨ amount > maxTradeAmount then (none, [])
  else
    match opportunity.action with
    | .buy_poly_up_kalshi_down =>
      let calls := [VenueCall.buy .polymarket opportunity.marketId "YES" amount
          opportunity.polyUpPrice,
        VenueCall.buy .kalshi opportunity.marketId "no" amount
          opportunity.kalshiDownPrice]
      match polyResult, kalshiResult with
      | .ok _, .ok _ => (some (mkPosition opportunity amount), calls)
      | _, _ => (none, calls)
    | .buy_poly_down_kalshi_up =>
      let calls := [VenueCall.buy .polymarket opportunity.marketId "NO" amount
          opportunity.polyDownPrice,
        VenueCall.buy .kalshi opportunity.marketId "yes" amount
          opportunity.kalshiUpPrice]
      match polyResult, kalshiResult with
      | .ok _, .ok _ => (some (mkPosition opportunity amount), calls)
      | _, _ => (none, calls)
    | .skip => (none, [])

/-- A Polymarket active-market descriptor, as consumed by the matcher. -/
structure PolyMarket where
  id : String
  question : String
  endDate : Int
  resolved : Bool
  resolvedPrice : Option ℚ
deriving Repr, DecidableEq

/-- A Kalshi active-market descriptor, as consumed by the matcher. -/
structure KalshiMarket where
  ticker : String
  title : String
  expiration_time : Int
  series_ticker : Option String
  status : String
  betted_price : Option ℚ
deriving Repr, DecidableEq

/-- JavaScript `haystack.includes(needle)` on strings, as list search. -/
def includesSub : List Char → List Char → Bool
  | needle, [] => needle.isEmpty
  | needle, c :: rest => needle.isPrefixOf (c :: rest) || includesSub needle rest

/-- The match test of `MarketMatcher.findMatchingKalshiMarket`: end times
within one minute (60000 ms) and the candidate tagged as a BTC 15-minute
series (`series_ticker?.includes("BTC-15M")`; a missing `series_ticker` is
falsy). -/
def kalshiMarketMatches (polyMarket : PolyMarket)
    (kalshiMarket : KalshiMarket) : Bool :=
  decide ((polyMarket.endDate - kalshiMarket.expiration_time).natAbs < 60000) &&
    (match kalshiMarket.series_ticker with
     | some s => includesSub "BTC-15M".toList s.toList
     | none => false)

/-- Source `MarketMatcher.findMatchingKalshiMarket`: scan the Kalshi list in order
and return the first candidate passing `kalshiMarketMatches`. -/
def findMatchingKalshiMarket (polyMarket : PolyMarket) :
    List KalshiMarket → Option KalshiMarket
  | [] => none
  | kalshiMarket :: rest =>
    if kalshiMarketMatches polyMarket kalshiMarket then some kalshiMarket
    else findMatchingKalshiMarket polyMarket rest

/-- Source `MarketMatcher.matchMarkets`, with the per-market price fetches passed as
functions of the id handed to each venue client. -/
def matchMarkets (getPolyPrices getKalshiPrices : String → MarketPrice)
    (polyMarkets : List PolyMarket) (kalshiMarkets : List KalshiMarket) :
    List MarketData :=
  polyMarkets.filterMap fun polyMarket =>
    (findMatchingKalshiMarket polyMarket kalshiMarkets).map fun kalshiMarket =>
      { marketId := polyMarket.id
        marketTitle := polyMarket.question
        endTime := polyMarket.endDate
        isResolved := polyMarket.resolved || kalshiMarket.status == "resolved"
        resolvedPrice := polyMarket.resolvedPrice <|> kalshiMarket.betted_price
        polymarket := getPolyPrices polyMarket.id
        kalshi := getKalshiPrices kalshiMarket.ticker }

/-- Settled outcomes of the venue calls a Resolution Monitor poll may issue
(`.error` models a rejected promise). -/
structure RedeemOracle where
  polyResolved : String → Except Unit Bool
  kalshiResolved : String → Except Unit Bool
  redeemResult : Venue → String → String → Except Unit Bool

/-- The redemption calls `Redeemer.redeemPosition` issues: one per leg with a
nonzero recorded amount, in source order (poly YES, poly NO, kalshi yes,
kalshi no), all keyed by the position's single `marketId`. -/
def redeemCallsFor (position : Position) : List VenueCall :=
  (if position.polyUp > 0 then
    [VenueCall.redeem .polymarket position.marketId "YES"] else []) ++
  (if position.polyDown > 0 then
    [VenueCall.redeem .polymarket position.marketId "NO"] else []) ++
  (if position.kalshiUp > 0 then
    [VenueCall.redeem .kalshi position.marketId "yes"] else []) ++
  (if position.kalshiDown > 0 then
    [VenueCall.redeem .kalshi position.marketId "no"] else [])

/-- Whether a redemption call settled as fulfilled with value `true`
(`r.status === "fulfilled" && r.value === true`). -/
def redeemFulfilled (oracle : RedeemOracle) : VenueCall → Bool
  | .redeem venue marketId side =>
    match oracle.redeemResult venue marketId side with
    | .ok b => b
    | .error _ => false
  | _ => false

/-- Source `Redeemer.redeemPosition`: issue the nonzero-leg redemption calls
(`Promise.allSettled`) and mark the position redeemed only when every call
fulfilled with `true`; otherwise the position is left unchanged. -/
def redeemPosition (oracle : RedeemOracle) (position : Position) : Position :=
  if (redeemCallsFor position).all (redeemFulfilled oracle) then
    { position with status := .redeemed }
  else position

/-- One position's processing in `Redeemer.checkAndRedeem`: non-active
positions are skipped untouched; both venues' resolution is checked with the
position's `marketId` (a rejection of either check is caught and leaves the
position untouched); when both report resolved, redemption is attempted.
Returns the updated position and the trace of calls issued. -/
def checkAndRedeemPosition (oracle : RedeemOracle) (position : Position) :
    Position × List VenueCall :=
  if position.status ≠ .active then (position, [])
  else
    let checks := [VenueCall.checkResolved .polymarket position.marketId,
      VenueCall.checkResolved .kalshi position.marketId]
    match oracle.polyResolved position.marketId,
        oracle.kalshiResolved position.marketId with
    | .ok polyResolved, .ok kalshiResolved =>
      if polyResolved && kalshiResolved then
        (redeemPosition oracle position, checks ++ redeemCallsFor position)
      else (position, checks)
    | _, _ => (position, checks)

/-- Source `Redeemer.checkAndRedeem` over the whole ledger. -/
def checkAndRedeem (oracle : RedeemOracle) (positions : List Position) :
    List Position :=
  positions.map fun position => (checkAndRedeemPosition oracle position).fst

/-- One market's processing inside `ArbitrageBot.scanAndTrade` once an
opportunity has been detected.  The duplicate guard replicates the source
exactly: `positions.find(p => p.marketId === opportunity.marketId)` returns
the FIRST ledger entry with that marketId, and execution is skipped only when
that particular entry is active. -/
def scanStep (minTradeAmount maxTradeAmount : ℚ)
    (polyResult kalshiResult : Except Unit Trade) (positions : List Position)
    (opportunity : ArbitrageOpportunity) (amount : ℚ) : List Position :=
  let tryTrade :=
    match (executeArbitrage minTradeAmount maxTradeAmount polyResult
        kalshiResult opportunity amount).fst with
    | some position => positions ++ [position]
    | none => positions
  match positions.find? fun p => p.marketId == opportunity.marketId with
  | some existingPosition =>
    if existingPosition.status = .active then positions else tryTrade
  | none => tryTrade

/-- Ledger states reachable from the empty ledger by any interleaving of
Orchestrator scan-tick market processings and Resolution Monitor polls.  A
scan step handles an opportunity produced by `detectOpportunity` on an
unresolved fetched market snapshot (quotes and settled call outcomes are
external inputs). -/
inductive ReachableLedger (minTradeAmount maxTradeAmount T : ℚ) :
    List Position → Prop
  | init : ReachableLedger minTradeAmount maxTradeAmount T []
  | scan {positions : List Position}
      (hr : ReachableLedger minTradeAmount maxTradeAmount T positions)
      (md : MarketData) (opportunity : ArbitrageOpportunity) (amount : ℚ)
      (polyResult kalshiResult : Except Unit Trade)
      (hmd : md.isResolved = false)
      (hdet : detectOpportunity T md = some opportunity) :
      ReachableLedger minTradeAmount maxTradeAmount T
        (scanStep minTradeAmount maxTradeAmount polyResult kalshiResult
          positions opportunity amount)
  | poll {positions : List Position}
      (hr : ReachableLedger minTradeAmount maxTradeAmount T positions)
      (oracle : RedeemOracle) :
      ReachableLedger minTradeAmount maxTradeAmount T
        (checkAndRedeem oracle positions)

/-- C5: for a non-SKIP action and an in-band amount, `executeArbitrage`
returns a position exactly when both concurrently placed legs settled as
fulfilled (allSettled semantics); on any leg failure the result is `none`,
while the trace still holds the two leg placements and never a cancel of the
surviving leg. -/
theorem executeArbitrage_dual_leg (minTradeAmount maxTradeAmount : ℚ)
    (polyResult kalshiResult : Except Unit Trade)
    (opportunity : ArbitrageOpportunity) (amount : ℚ)
    (hact : opportunity.action ≠ .skip)
    (hlo : minTradeAmount ≤ amount) (hhi : amount ≤ maxTradeAmount) :
    ((∃ position, (executeArbitrage minTradeAmount maxTradeAmount polyResult
        kalshiResult opportunity amount).fst = some position) ↔
      (∃ t, polyResult = .ok t) ∧ (∃ t, kalshiResult = .ok t)) ∧
    (executeArbitrage minTradeAmount maxTradeAmount polyResult kalshiResult
      opportunity amount).snd.length = 2 ∧
    (∀ venue marketId, VenueCall.cancel venue marketId ∉
      (executeArbitrage minTradeAmount maxTradeAmount polyResult kalshiResult
        opportunity amount).snd) := by
  have hband : ¬ (amount < minTradeAmount ∨ amount > maxTradeAmount) := by
    rintro (h | h)
    · exact absurd hlo (not_le.mpr h)
    · exact absurd hhi (not_le.mpr h)
  unfold executeArbitrage
  rw [if_neg hband]
  cases hA : opportunity.action <;> try exact absurd hA hact
  all_goals
    cases polyResult <;> cases kalshiResult <;>
      simp

/-- Witness for `executeArbitrage_dual_leg`: a concrete A-up/B-down
opportunity with an in-band amount of 10, the Polymarket leg fulfilled and
the Kalshi leg rejected, yields no position while still tracing two buys. -/
theorem executeArbitrage_dual_leg_witness :
    (¬ ∃ position,
      (executeArbitrage 10 1000 (.ok ⟨"order-1"⟩) (.error ())
        { marketId := "m", marketTitle := "t", opportunityType := .both
          polyUpPrice := 40, polyDownPrice := 42, kalshiUpPrice := 45
          kalshiDownPrice := 45, totalCost := 85, profitPotential := 25
          polyBettedPrice := none, kalshiBettedPrice := none
          action := .buy_poly_up_kalshi_down } 10).fst = some position) ∧
    (executeArbitrage 10 1000 (.ok ⟨"order-1"⟩) (.error ())
      { marketId := "m", marketTitle := "t", opportunityType := .both
        polyUpPrice := 40, polyDownPrice := 42, kalshiUpPrice := 45
        kalshiDownPrice := 45, totalCost := 85, profitPotential := 25
        polyBettedPrice := none, kalshiBettedPrice := none
        action := .buy_poly_up_kalshi_down } 10).snd.length = 2 := by
  obtain ⟨hiff, hlen, -⟩ :=
    executeArbitrage_dual_leg 10 1000 (.ok ⟨"order-1"⟩) (.error ())
      { marketId := "m", marketTitle := "t", opportunityType := .both
        polyUpPrice := 40, polyDownPrice := 42, kalshiUpPrice := 45
        kalshiDownPrice := 45, totalCost := 85, profitPotential := 25
        polyBettedPrice := none, kalshiBettedPrice := none
        action := .buy_poly_up_kalshi_down } 10
      (by simp) (by norm_num) (by norm_num)
  refine ⟨fun hsome => ?_, hlen⟩
  obtain ⟨-, t, ht⟩ := hiff.mp hsome
  exact Except.noConfusion ht

/-- C8: an amount strictly outside the configured band makes
`executeArbitrage` return `null` with no order placed on either venue (and,
being a total function, without raising an exception), while amounts at
either boundary pass the band check and the two legs are placed. -/
theorem executeArbitrage_amount_band (minTradeAmount maxTradeAmount : ℚ)
    (polyResult kalshiResult : Except Unit Trade)
    (opportunity : ArbitrageOpportunity) (amount : ℚ) :
    ((amount < minTradeAmount ∨ amount > maxTradeAmount) →
      executeArbitrage minTradeAmount maxTradeAmount polyResult kalshiResult
        opportunity amount = (none, [])) ∧
    (minTradeAmount ≤ amount → amount ≤ maxTradeAmount →
      opportunity.action ≠ .skip →
      (executeArbitrage minTradeAmount maxTradeAmount polyResult kalshiResult
        opportunity amount).snd.length = 2) := by
  constructor
  · intro h
    unfold executeArbitrage
    rw [if_pos h]
  · intro hlo hhi hact
    exact (executeArbitrage_dual_leg minTradeAmount maxTradeAmount polyResult
      kalshiResult opportunity amount hact hlo hhi).2.1

/-- Witness for `executeArbitrage_amount_band`: with band [10, 1000], amount
5 is silently rejected with an empty trace, and the boundary amount 10 is
accepted and places both legs. -/
theorem executeArbitrage_amount_band_witness :
    executeArbitrage 10 1000 (.ok ⟨"order-1"⟩) (.ok ⟨"order-2"⟩)
      { marketId := "m", marketTitle := "t", opportunityType := .both
        polyUpPrice := 40, polyDownPrice := 42, kalshiUpPrice := 45
        kalshiDownPrice := 45, totalCost := 85, profitPotential := 25
        polyBettedPrice := none, kalshiBettedPrice := none
        action := .buy_poly_up_kalshi_down } 5 = (none, []) ∧
    (executeArbitrage 10 1000 (.ok ⟨"order-1"⟩) (.ok ⟨"order-2"⟩)
      { marketId := "m", marketTitle := "t", opportunityType := .both
        polyUpPrice := 40, polyDownPrice := 42, kalshiUpPrice := 45
        kalshiDownPrice := 45, totalCost := 85, profitPotential := 25
        polyBettedPrice := none, kalshiBettedPrice := none
        action := .buy_poly_up_kalshi_down } 10).snd.length = 2 := by
  constructor
  · exact (executeArbitrage_amount_band 10 1000 (.ok ⟨"order-1"⟩)
      (.ok ⟨"order-2"⟩) _ 5).1 (Or.inl (by norm_num))
  · exact (executeArbitrage_amount_band 10 1000 (.ok ⟨"order-1"⟩)
      (.ok ⟨"order-2"⟩) _ 10).2 (by norm_num) (by norm_num) (by simp)

/-- Helper: the JavaScript-style substring search agrees with list infix. -/
theorem includesSub_iff_infix (needle hay : List Char) :
    includesSub needle hay = true ↔ needle <:+: hay := by
  induction hay with
  | nil => simp [includesSub, List.infix_nil, List.isEmpty_iff]
  | cons c rest ih =>
    simp [includesSub, List.infix_cons_iff, List.isPrefixOf_iff_prefix, ih]

/-- C9: the matcher returns exactly the first Kalshi candidate, in list
order, whose close time is strictly within 60 seconds of the Polymarket
close time and whose series marker contains the 15-minute BTC tag (so `none`
when no candidate qualifies, at most one match, ties resolved by list
order). -/
theorem findMatchingKalshiMarket_first_match (polyMarket : PolyMarket)
    (kalshiMarkets : List KalshiMarket) :
    findMatchingKalshiMarket polyMarket kalshiMarkets =
      kalshiMarkets.find? (kalshiMarketMatches polyMarket) ∧
    ∀ kalshiMarket : KalshiMarket,
      kalshiMarketMatches polyMarket kalshiMarket = true ↔
        ((polyMarket.endDate - kalshiMarket.expiration_time).natAbs < 60000 ∧
          ∃ s, kalshiMarket.series_ticker = some s ∧
            "BTC-15M".toList <:+: s.toList) := by
  constructor
  · induction kalshiMarkets with
    | nil => rfl
    | cons kalshiMarket rest ih =>
      rw [findMatchingKalshiMarket]
      by_cases h : kalshiMarketMatches polyMarket kalshiMarket = true
      · rw [if_pos h, List.find?_cons_of_pos _ h]
      · rw [if_neg h, List.find?_cons_of_neg _ (by simpa using h), ih]
  · intro kalshiMarket
    unfold kalshiMarketMatches
    rcases hs : kalshiMarket.series_ticker with _ | s
    · simp [hs]
    · simp [hs, includesSub_iff_infix]

/-- Witness for `findMatchingKalshiMarket_first_match` at a concrete pair:
the single candidate closes 19 seconds away and carries the BTC-15M series
tag, so it is returned. -/
theorem findMatchingKalshiMarket_first_match_witness :
    findMatchingKalshiMarket
      { id := "poly-1", question := "q", endDate := 1000, resolved := false
        resolvedPrice := none }
      [{ ticker := "KXBTC-1", title := "BTC 15m", expiration_time := 20000
         series_ticker := some "KXBTC-15M", status := "open"
         betted_price := none }] =
      some { ticker := "KXBTC-1", title := "BTC 15m", expiration_time := 20000
             series_ticker := some "KXBTC-15M", status := "open"
             betted_price := none } := by
  rw [(findMatchingKalshiMarket_first_match
    { id := "poly-1", question := "q", endDate := 1000, resolved := false
      resolvedPrice := none }
    [{ ticker := "KXBTC-1", title := "BTC 15m", expiration_time := 20000
       series_ticker := some "KXBTC-15M", status := "open"
       betted_price := none }]).1]
  decide

/-- Helper: every redemption call is keyed by the position's marketId. -/
theorem mem_redeemCallsFor {position : Position} {c : VenueCall}
    (h : c ∈ redeemCallsFor position) :
    ∃ venue side, c = VenueCall.redeem venue position.marketId side := by
  unfold redeemCallsFor at h
  simp only [List.mem_append] at h
  rcases h with ((h | h) | h) | h <;>
  · split at h
    · simp at h
      subst h
      exact ⟨_, _, rfl⟩
    · simp at h

/-- C4: a matched market's single `marketId` is venue-A's (Polymarket's) id
— the matched Kalshi ticker is not retained in the `MarketData` — and every
venue call later issued for an opportunity or position (both legs' order
placements, both resolution checks, and every redemption) is keyed by that
single id, so the Kalshi client is always invoked with the Polymarket market
id. -/
theorem marketId_flows_from_polymarket :
    (∀ (getPolyPrices getKalshiPrices : String → MarketPrice)
        (polyMarkets : List PolyMarket) (kalshiMarkets : List KalshiMarket)
        (md : MarketData),
      md ∈ matchMarkets getPolyPrices getKalshiPrices polyMarkets
          kalshiMarkets →
      ∃ polyMarket kalshiMarket, polyMarket ∈ polyMarkets ∧
        findMatchingKalshiMarket polyMarket kalshiMarkets =
          some kalshiMarket ∧
        md.marketId = polyMarket.id) ∧
    (∀ (minTradeAmount maxTradeAmount : ℚ)
        (polyResult kalshiResult : Except Unit Trade)
        (opportunity : ArbitrageOpportunity) (amount : ℚ) (c : VenueCall),
      c ∈ (executeArbitrage minTradeAmount maxTradeAmount polyResult
          kalshiResult opportunity amount).snd →
      ∃ venue side a p,
        c = VenueCall.buy venue opportunity.marketId side a p) ∧
    (∀ (oracle : RedeemOracle) (position : Position) (c : VenueCall),
      c ∈ (checkAndRedeemPosition oracle position).snd →
      (∃ venue, c = VenueCall.checkResolved venue position.marketId) ∨
      (∃ venue side, c = VenueCall.redeem venue position.marketId side)) := by
  refine ⟨?_, ?_, ?_⟩
  · intro getPolyPrices getKalshiPrices polyMarkets kalshiMarkets md hmem
    simp only [matchMarkets, List.mem_filterMap] at hmem
    obtain ⟨polyMarket, hpm, heq⟩ := hmem
    obtain ⟨kalshiMarket, hfind, hmd⟩ := Option.map_eq_some'.mp heq
    exact ⟨polyMarket, kalshiMarket, hpm, hfind, by rw [← hmd]⟩
  · intro minTradeAmount maxTradeAmount polyResult kalshiResult opportunity
      amount c h
    simp only [executeArbitrage] at h
    split at h
    · simp at h
    · split at h
      · rcases polyResult <;> rcases kalshiResult <;>
          · simp only [List.mem_cons, List.not_mem_nil, or_false] at h
            rcases h with rfl | rfl <;> exact ⟨_, _, _, _, rfl⟩
      · rcases polyResult <;> rcases kalshiResult <;>
          · simp only [List.mem_cons, List.not_mem_nil, or_false] at h
            rcases h with rfl | rfl <;> exact ⟨_, _, _, _, rfl⟩
      · simp at h
  · intro oracle position c h
    simp only [checkAndRedeemPosition] at h
    split at h
    · simp at h
    · split at h
      · rename_i polyResolved kalshiResolved
        split at h
        · simp only [List.mem_append, List.mem_cons, List.mem_singleton] at h
          rcases h with (h | h | h) | h
          · exact Or.inl ⟨_, h⟩
          · exact Or.inl ⟨_, h⟩
          · simp at h
          · exact Or.inr (mem_redeemCallsFor h)
        · simp only [List.mem_cons, List.mem_singleton] at h
          rcases h with h | h | h
          · exact Or.inl ⟨_, h⟩
          · exact Or.inl ⟨_, h⟩
          · simp at h
      · simp only [List.mem_cons, List.mem_singleton] at h
        rcases h with h | h | h
        · exact Or.inl ⟨_, h⟩
        · exact Or.inl ⟨_, h⟩
        · simp at h

/-- Witness for `marketId_flows_from_polymarket`: a concrete matched pair
whose produced `MarketData` carries the Polymarket id "poly-1" (not the
Kalshi ticker "KXBTC-1"), and a concrete Kalshi leg placement keyed by the
opportunity's marketId. -/
theorem marketId_flows_from_polymarket_witness :
    (∃ polyMarket kalshiMarket,
      polyMarket ∈ [({ id := "poly-1", question := "q", endDate := 1000,
                       resolved := false, resolvedPrice := none } : PolyMarket)] ∧
      findMatchingKalshiMarket polyMarket
        [{ ticker := "KXBTC-1", title := "BTC 15m", expiration_time := 20000,
           series_ticker := some "KXBTC-15M", status := "open",
           betted_price := none }] = some kalshiMarket ∧
      ({ marketId := "poly-1", marketTitle := "q", endTime := 1000,
         isResolved := false, resolvedPrice := none,
         polymarket := { upPrice := 50, downPrice := 50, bettedPrice := none },
         kalshi := { upPrice := 50, downPrice := 50, bettedPrice := none } } :
        MarketData).marketId = polyMarket.id) ∧
    (∃ venue side a p,
      VenueCall.buy Venue.kalshi "m" "no" 10 45 =
        VenueCall.buy venue
          ({ marketId := "m", marketTitle := "t", opportunityType := .both,
             polyUpPrice := 40, polyDownPrice := 42, kalshiUpPrice := 45,
             kalshiDownPrice := 45, totalCost := 85, profitPotential := 25,
             polyBettedPrice := none, kalshiBettedPrice := none,
             action := .buy_poly_up_kalshi_down } :
            ArbitrageOpportunity).marketId side a p) := by
  constructor
  · exact marketId_flows_from_polymarket.1
      (fun _ => { upPrice := 50, downPrice := 50, bettedPrice := none })
      (fun _ => { upPrice := 50, downPrice := 50, bettedPrice := none })
      [{ id := "poly-1", question := "q", endDate := 1000,
         resolved := false, resolvedPrice := none }]
      [{ ticker := "KXBTC-1", title := "BTC 15m", expiration_time := 20000,
         series_ticker := some "KXBTC-15M", status := "open",
         betted_price := none }]
      _ (by decide)
  · exact marketId_flows_from_polymarket.2.1 10 1000
      (.ok ⟨"order-1"⟩) (.ok ⟨"order-2"⟩)
      { marketId := "m", marketTitle := "t", opportunityType := .both,
        polyUpPrice := 40, polyDownPrice := 42, kalshiUpPrice := 45,
        kalshiDownPrice := 45, totalCost := 85, profitPotential := 25,
        polyBettedPrice := none, kalshiBettedPrice := none,
        action := .buy_poly_up_kalshi_down } 10
      (VenueCall.buy Venue.kalshi "m" "no" 10 45)
      (by norm_num [executeArbitrage, List.mem_cons])

/-- C7: a Resolution Monitor poll step changes a position's status to
redeemed only when both venues' resolution checks fulfilled with `true` and
every redemption call issued for its non-zero legs fulfilled with `true`; if
any attempted redemption fails the position is left untouched (still
active); and a position that is not active (already redeemed or expired) is
never modified — in particular it is never flipped back to active. -/
theorem checkAndRedeemPosition_status (oracle : RedeemOracle)
    (position : Position) :
    (position.status ≠ .active →
      checkAndRedeemPosition oracle position = (position, [])) ∧
    ((checkAndRedeemPosition oracle position).fst.status = .redeemed →
      position.status = .redeemed ∨
      (oracle.polyResolved position.marketId = .ok true ∧
        oracle.kalshiResolved position.marketId = .ok true ∧
        ∀ c ∈ redeemCallsFor position, redeemFulfilled oracle c = true)) ∧
    (position.status = .active →
      (∃ c ∈ redeemCallsFor position, redeemFulfilled oracle c = false) →
      (checkAndRedeemPosition oracle position).fst = position) ∧
    (position.status = .active →
      oracle.polyResolved position.marketId = .ok true →
      oracle.kalshiResolved position.marketId = .ok true →
      (∀ c ∈ redeemCallsFor position, redeemFulfilled oracle c = true) →
      (checkAndRedeemPosition oracle position).fst.status = .redeemed) := by
  refine ⟨?_, ?_, ?_, ?_⟩
  · intro h
    unfold checkAndRedeemPosition
    rw [if_pos h]
  · intro h
    unfold checkAndRedeemPosition at h
    split at h
    · exact Or.inl h
    · split at h
      · rename_i polyResolved kalshiResolved hpr hkr
        split at h
        · rename_i hand
          unfold redeemPosition at h
          split at h
          · rename_i hall
            obtain ⟨hp, hk⟩ : polyResolved = true ∧ kalshiResolved = true := by
              simpa using hand
            subst hp
            subst hk
            exact Or.inr ⟨hpr, hkr, List.all_eq_true.mp hall⟩
          · exact Or.inl h
        · exact Or.inl h
      · exact Or.inl h
  · intro hact hex
    obtain ⟨c, hc, hfail⟩ := hex
    have hnall : ¬ (redeemCallsFor position).all (redeemFulfilled oracle) = true := by
      intro hall
      have hct := List.all_eq_true.mp hall c hc
      rw [hfail] at hct
      exact Bool.noConfusion hct
    unfold checkAndRedeemPosition
    rw [if_neg (not_not_intro hact)]
    dsimp only
    split
    · split
      · dsimp only
        unfold redeemPosition
        rw [if_neg hnall]
      · rfl
    · rfl
  · intro hact hpr hkr hall
    unfold checkAndRedeemPosition
    rw [if_neg (not_not_intro hact), hpr, hkr]
    dsimp only
    rw [if_pos (show (true && true) = true from rfl)]
    unfold redeemPosition
    rw [if_pos (List.all_eq_true.mpr hall)]

/-- A poll oracle whose venue calls all fulfil with `true`. -/
def exOracle : RedeemOracle :=
  { polyResolved := fun _ => .ok true
    kalshiResolved := fun _ => .ok true
    redeemResult := fun _ _ _ => .ok true }

/-- Witness for `checkAndRedeemPosition_status`: a redeemed position is left
untouched by a poll, and an active two-leg position whose venues report
resolved and whose redemptions all succeed is marked redeemed. -/
theorem checkAndRedeemPosition_status_witness :
    checkAndRedeemPosition exOracle
      { marketId := "m", polyUp := 10, polyDown := 0, kalshiUp := 0,
        kalshiDown := 10, totalCost := 8, expectedProfit := 2,
        status := .redeemed } =
      ({ marketId := "m", polyUp := 10, polyDown := 0, kalshiUp := 0,
         kalshiDown := 10, totalCost := 8, expectedProfit := 2,
         status := .redeemed }, []) ∧
    (checkAndRedeemPosition exOracle
      { marketId := "m", polyUp := 10, polyDown := 0, kalshiUp := 0,
        kalshiDown := 10, totalCost := 8, expectedProfit := 2,
        status := .active }).fst.status = .redeemed := by
  constructor
  · exact (checkAndRedeemPosition_status exOracle _).1 (by simp)
  · refine (checkAndRedeemPosition_status exOracle _).2.2.2 rfl rfl rfl ?_
    intro c hc
    have hcalls : redeemCallsFor
        { marketId := "m", polyUp := 10, polyDown := 0, kalshiUp := 0,
          kalshiDown := 10, totalCost := 8, expectedProfit := 2,
          status := PositionStatus.active } =
        [VenueCall.redeem .polymarket "m" "YES",
         VenueCall.redeem .kalshi "m" "no"] := by
      norm_num [redeemCallsFor]
    rw [hcalls] at hc
    rcases List.mem_cons.mp hc with rfl | hc2
    · rfl
    · rcases List.mem_cons.mp hc2 with rfl | hc3
      · rfl
      · exact absurd hc3 (List.not_mem_nil _)

/-- A matched-market snapshot where both combinations cost 80 (< 90) with no
settlement data, so the detector picks the cost fallback. -/
def exMd : MarketData :=
  { marketId := "m", marketTitle := "t", endTime := 0, isResolved := false,
    resolvedPrice := none,
    polymarket := { upPrice := 40, downPrice := 40, bettedPrice := none },
    kalshi := { upPrice := 40, downPrice := 40, bettedPrice := none } }

/-- The opportunity `detectOpportunity 90 exMd` produces. -/
def exOpp : ArbitrageOpportunity :=
  { marketId := "m", marketTitle := "t", opportunityType := .both,
    polyUpPrice := 40, polyDownPrice := 40, kalshiUpPrice := 40,
    kalshiDownPrice := 40, totalCost := 80, profitPotential := 25,
    polyBettedPrice := none, kalshiBettedPrice := none,
    action := .buy_poly_down_kalshi_up }

/-- An arbitrary filled order. -/
def exTrade : Trade := ⟨"order-1"⟩

/-- The position the executor records for `exOpp` at amount 10. -/
def exPosition : Position := mkPosition exOpp 10

/-- The same position after successful redemption. -/
def exPositionRedeemed : Position := { mkPosition exOpp 10 with status := .redeemed }

/-- Snapshot `exMd` detects to `exOpp` at the default threshold 90. -/
theorem exMd_detect : detectOpportunity 90 exMd = some exOpp := by
  norm_num [detectOpportunity, determineAction, exMd, exOpp, profitPotentialOf]
  exact fun h => Action.noConfusion h

/-- Scan on the empty ledger trades and appends the active position. -/
theorem ex_scan_empty :
    scanStep 10 1000 (.ok exTrade) (.ok exTrade) [] exOpp 10 = [exPosition] := by
  norm_num [scanStep, executeArbitrage, exOpp, exPosition, List.find?]

/-- A poll with `exOracle` redeems the single active position. -/
theorem ex_poll : checkAndRedeem exOracle [exPosition] = [exPositionRedeemed] := by
  norm_num [checkAndRedeem, checkAndRedeemPosition, exOracle, redeemPosition,
    redeemCallsFor, redeemFulfilled, exPosition, exPositionRedeemed,
    mkPosition, exOpp]

/-- With only the redeemed entry in the ledger, a new scan trades again. -/
theorem ex_scan_after_redeem :
    scanStep 10 1000 (.ok exTrade) (.ok exTrade) [exPositionRedeemed] exOpp 10 =
      [exPositionRedeemed, exPosition] := by
  norm_num [scanStep, executeArbitrage, List.find?, exPositionRedeemed,
    exPosition, mkPosition, exOpp]
  decide

/-- With the redeemed entry FIRST in the ledger, the guard only inspects it
(`positions.find` returns the first marketId match), misses the active entry
behind it, and trades yet again. -/
theorem ex_scan_dup :
    scanStep 10 1000 (.ok exTrade) (.ok exTrade)
      [exPositionRedeemed, exPosition] exOpp 10 =
      [exPositionRedeemed, exPosition, exPosition] := by
  norm_num [scanStep, executeArbitrage, List.find?, exPositionRedeemed,
    exPosition, mkPosition, exOpp]
  decide

/-- C6 fails on the code: a ledger holding TWO active positions for the same
marketId "m" is reachable by scan ticks and monitor polls (trade, redeem,
trade, trade), because the duplicate guard checks only the first ledger
entry with the marketId — here the redeemed one — rather than searching for
any active entry. -/
theorem duplicate_active_positions_reachable :
    ∃ positions : List Position, ReachableLedger 10 1000 90 positions ∧
      2 ≤ (positions.filter fun p =>
        p.marketId == "m" && p.status == PositionStatus.active).length := by
  refine ⟨[exPositionRedeemed, exPosition, exPosition], ?_, ?_⟩
  · have r0 : ReachableLedger 10 1000 90 [] := ReachableLedger.init
    have r1 := r0.scan exMd exOpp 10 (.ok exTrade) (.ok exTrade) rfl exMd_detect
    rw [ex_scan_empty] at r1
    have r2 := r1.poll exOracle
    rw [ex_poll] at r2
    have r3 := r2.scan exMd exOpp 10 (.ok exTrade) (.ok exTrade) rfl exMd_detect
    rw [ex_scan_after_redeem] at r3
    have r4 := r3.scan exMd exOpp 10 (.ok exTrade) (.ok exTrade) rfl exMd_detect
    rw [ex_scan_dup] at r4
    exact r4
  · decide

end ArbBot
